import Mathlib

/-!
Verification of the session and sequencing engine of the Chief's Log trainer.

The development shallowly embeds the TypeScript sources:
* `src/utils/entropy.ts` (`secureShuffle`, `generateSecureSequence`) — the
  Web Crypto entropy source (`crypto.getRandomValues` on a `Uint32Array`)
  is modelled as an oracle `rand : Nat → Nat` whose draws are reduced
  modulo `2^32` exactly where the source reads a 32-bit word;
* `src/App.tsx` — the React component's state is the `AppState` record and
  each handler (`loadQuestion`, `startExam`, `nextQuestion`, `finishExam`,
  `handleOptionSelect`) becomes a pure state transformer.  The `useEffect`
  that reloads the current question whenever the mode / exam state /
  cursor changes is `runEffect`.  Host values the handlers consume
  (`Date.now()`, `crypto.randomUUID()`, the question factory
  `generateQuestionFromEngine`) are passed as explicit parameters.
  UI-only fields (tips, AI analysis text, loading flags, menu state) carry
  no session logic and are omitted from the record.
* the `localStorage` boot loaders of `App.tsx` — the host JSON parser and
  `Number` coercion are parameters; a parse that would throw is modelled
  by the parser returning `none`, and a loader result of `none` means the
  uncaught exception propagates out of the loader.
-/

namespace ChiefsLog

/-! ## Embedding of src/utils/entropy.ts -/

/-- Size of the 32-bit word space read from `crypto.getRandomValues`. -/
def UINT32 : Nat := 4294967296

/-- The destructuring swap `[result[i], result[j]] = [result[j], result[i]]`
inside `secureShuffle`: both right-hand sides are read from the original
list, then written. -/
def swapList (l : List Nat) (i j : Nat) : List Nat :=
  (l.set i (l.getD j 0)).set j (l.getD i 0)

/-- The `for (let i = result.length - 1; i > 0; i--)` loop of
`secureShuffle`.  The first argument is the loop variable `i` counted
down; at each iteration the swap index is `j = randomBuffer[0] % (i + 1)`
with `randomBuffer[0]` a 32-bit draw from the oracle. -/
def shuffleLoop (rand : Nat → Nat) : Nat → List Nat → List Nat
  | 0, result => result
  | i + 1, result =>
      shuffleLoop rand i (swapList result (i + 1) ((rand (i + 1) % UINT32) % (i + 1 + 1)))

/-- Embedding of `secureShuffle` from `src/utils/entropy.ts`: copy the argument and run
the Fisher–Yates loop over the copy. -/
def secureShuffle (rand : Nat → Nat) (array : List Nat) : List Nat :=
  shuffleLoop rand (array.length - 1) array

/-- Embedding of `generateSecureSequence` from `src/utils/entropy.ts`:
`Array.from({length}, (_, i) => i + 1)` is the identity sequence
`[1, …, length]`, which is then shuffled. -/
def generateSecureSequence (rand : Nat → Nat) (length : Nat) : List Nat :=
  secureShuffle rand (List.range' 1 length)

/-- The two local array objects of `secureShuffle`: the caller's `array`
and the fresh copy `result = [...array]`.  Keeping both components makes
the write targets of the loop explicit: every assignment in the source
body stores into `result`. -/
structure ShuffleLocals where
  array : List Nat
  result : List Nat

/-- The `secureShuffle` loop acting on both locals: each iteration writes
only the `result` component, exactly as the source's swap statement does. -/
def shuffleLoopExec (rand : Nat → Nat) : Nat → ShuffleLocals → ShuffleLocals
  | 0, st => st
  | i + 1, st =>
      shuffleLoopExec rand i
        { st with result := swapList st.result (i + 1) ((rand (i + 1) % UINT32) % (i + 1 + 1)) }

/-- Embedding of `secureShuffle` with its locals kept explicit: `result` starts as a
copy of `array` (`const result = [...array]`), then the loop runs. -/
def secureShuffleExec (rand : Nat → Nat) (array : List Nat) : ShuffleLocals :=
  shuffleLoopExec rand (array.length - 1) { array := array, result := array }

/-! ## Embedding of the src/App.tsx data model -/

/-- The six `Paper` enumeration values used as record keys in `App.tsx`. -/
inductive Paper where
  | P2A1 | P2A2 | P2A3 | P2B1 | P2B2 | P2B3
deriving DecidableEq, Repr

/-- The fields of a resolved `Question` that the session layer reads. -/
structure Question where
  id : String
  topic : String
  prompt : String
  options : List (String × String)
  correctKey : String
  explanation : String
deriving DecidableEq, Repr

/-- A `HistoryEntry` as pushed by `handleOptionSelect`. -/
structure HistoryEntry where
  questionId : String
  paper : Paper
  topic : String
  isCorrect : Bool
  timestamp : Nat
deriving DecidableEq, Repr

/-- An `ExamRecord` as constructed by `finishExam`. -/
structure ExamRecord where
  id : String
  paper : Paper
  score : Nat
  total : Nat
  timestamp : Nat
  passed : Bool
deriving DecidableEq, Repr

/-- The `examState` object of `App.tsx`. -/
structure ExamSession where
  currentIndex : Nat
  correctCount : Nat
  questionIndices : List Nat
  isFinished : Bool
deriving DecidableEq, Repr

/-- The `feedback` object set by `handleOptionSelect`. -/
structure Feedback where
  isCorrect : Bool
  message : String
  explanation : String
deriving DecidableEq, Repr

/-- The `AppMode` union type of `App.tsx`. -/
inductive AppMode where
  | training | simulation | exam | scoreboard
deriving DecidableEq, Repr

/-- The React state of the `App` component that carries session logic. -/
structure AppState where
  activePaper : Paper
  appMode : AppMode
  score : Nat
  history : List HistoryEntry
  highScores : List ExamRecord
  examSequences : Paper → List Nat
  sequencePositions : Paper → Nat
  examState : Option ExamSession
  currentQuestion : Option Question
  selectedOption : Option String
  feedback : Option Feedback

/-- Constant `TOTAL_QUESTIONS_PER_SECTION` in `App.tsx`. -/
def TOTAL_QUESTIONS_PER_SECTION : Nat := 300

/-- Constant `EXAM_LENGTH` in `App.tsx`. -/
def EXAM_LENGTH : Nat := 100

/-- Constant `PASS_MARK` in `App.tsx`. -/
def PASS_MARK : Nat := 65

/-- The history cap: the literal `10` in `setHistory(prev => [entry, ...prev].slice(0, 10))`. -/
def HISTORY_CAP : Nat := 10

/-- The leaderboard cap: the literal `50` in `setHighScores(prev => [record, ...prev].slice(0, 50))`. -/
def LEADERBOARD_CAP : Nat := 50

/-- The history ledger append `[entry, ...prev].slice(0, 10)` from
`handleOptionSelect`. -/
def pushHistory (entry : HistoryEntry) (prev : List HistoryEntry) : List HistoryEntry :=
  (entry :: prev).take HISTORY_CAP

/-- The leaderboard append `[record, ...prev].slice(0, 50)` from
`finishExam`. -/
def pushRecord (record : ExamRecord) (prev : List ExamRecord) : List ExamRecord :=
  (record :: prev).take LEADERBOARD_CAP

/-! ## Embedding of the src/App.tsx handlers -/

/-- Embedding of `loadQuestion(paper, position)` from `App.tsx`: clear feedback and the
selection, look the position up through the topic's persisted sequence
(`sequence[position % TOTAL_QUESTIONS_PER_SECTION]`) and resolve the
question through the external factory (`generateQuestionFromEngine`,
passed here as `resolve`). -/
def loadQuestion (resolve : Paper → Nat → Question) (s : AppState)
    (paper : Paper) (position : Nat) : AppState :=
  let sequence := s.examSequences paper
  let actualIndex := sequence.getD (position % TOTAL_QUESTIONS_PER_SECTION) 0
  { s with feedback := none, selectedOption := none,
           currentQuestion := some (resolve paper actualIndex) }

/-- The question-loading `useEffect` of `App.tsx`: in exam mode with an
unfinished session load `questionIndices[currentIndex]`, in training mode
load the topic's cursor position, otherwise do nothing. -/
def runEffect (resolve : Paper → Nat → Question) (s : AppState) : AppState :=
  if s.appMode = AppMode.exam then
    match s.examState with
    | some es =>
        if es.isFinished then s
        else loadQuestion resolve s s.activePaper (es.questionIndices.getD es.currentIndex 0)
    | none => s
  else if s.appMode = AppMode.training then
    loadQuestion resolve s s.activePaper (s.sequencePositions s.activePaper)
  else s

/-- Embedding of `startExam` from `App.tsx`: draw a fresh permutation of
`TOTAL_QUESTIONS_PER_SECTION`, keep its first `EXAM_LENGTH` entries, and
install a fresh exam session. -/
def startExam (rand : Nat → Nat) (s : AppState) : AppState :=
  let indices := (generateSecureSequence rand TOTAL_QUESTIONS_PER_SECTION).take EXAM_LENGTH
  { s with examState := some ⟨0, 0, indices, false⟩, appMode := AppMode.exam }

/-- Embedding of `finishExam` from `App.tsx`: grade the session, prepend an
`ExamRecord` to the leaderboard and mark the session finished.  `uuid`
stands for `crypto.randomUUID()` and `now` for `Date.now()`. -/
def finishExam (uuid : String) (now : Nat) (s : AppState) : AppState :=
  match s.examState with
  | none => s
  | some es =>
      let finalScore := es.correctCount
      let passed : Bool := decide (finalScore ≥ PASS_MARK)
      let record : ExamRecord :=
        ⟨uuid, s.activePaper, finalScore, EXAM_LENGTH, now, passed⟩
      { s with highScores := pushRecord record s.highScores,
               examState := some ({ es with isFinished := true }) }

/-- Embedding of `nextQuestion` from `App.tsx`: in exam mode either finish (when the
next index would reach `EXAM_LENGTH`) or advance the session index; in
every other case advance the active topic's practice cursor modulo
`TOTAL_QUESTIONS_PER_SECTION`. -/
def nextQuestion (uuid : String) (now : Nat) (s : AppState) : AppState :=
  match s.appMode, s.examState with
  | AppMode.exam, some es =>
      if es.currentIndex + 1 ≥ EXAM_LENGTH then finishExam uuid now s
      else { s with examState := some ({ es with currentIndex := es.currentIndex + 1 }) }
  | _, _ =>
      { s with sequencePositions := fun p =>
          if p = s.activePaper then
            (s.sequencePositions s.activePaper + 1) % TOTAL_QUESTIONS_PER_SECTION
          else s.sequencePositions p }

/-- Embedding of `handleOptionSelect(key)` from `App.tsx`: guarded no-op when feedback
already exists or no question is loaded; otherwise grade the key, bump the
exam correct-count (exam mode with a session) or the practice score, push
a history entry and set feedback. -/
def handleOptionSelect (key : String) (now : Nat) (s : AppState) : AppState :=
  match s.feedback, s.currentQuestion with
  | some _, _ => s
  | none, none => s
  | none, some q =>
      let isCorrect : Bool := decide (key = q.correctKey)
      let entry : HistoryEntry := ⟨q.id, s.activePaper, q.topic, isCorrect, now⟩
      let fb : Feedback :=
        ⟨isCorrect, if isCorrect then "Log Verified." else "Critical Oversight.", q.explanation⟩
      let s1 : AppState :=
        (match s.appMode, s.examState with
        | AppMode.exam, some es =>
            { s with
              examState := some ({ es with
                correctCount := es.correctCount + (if isCorrect then 1 else 0) }) }
        | _, _ => { s with score := if isCorrect then s.score + 1 else s.score })
      { s1 with selectedOption := some key,
                history := pushHistory entry s.history,
                feedback := some fb }

/-! ## Embedding of the src/App.tsx boot loaders -/

/-- JavaScript `saved || dflt` on an optional stored string: `null` and
the empty string are falsy. -/
def jsOrString (saved : Option String) (dflt : String) : String :=
  match saved with
  | none => dflt
  | some sv => if sv = "" then dflt else sv

/-- The zero-initialised `defaultPositions` map of `App.tsx`. -/
def defaultPositions : Paper → Nat := fun _ => 0

/-- The `history` initialiser `JSON.parse(localStorage.getItem('chief_history') || '[]')`.
A `parse` result of `none` is `JSON.parse` throwing; the loader has no
guard, so the exception propagates (`none`). -/
def loadHistoryState (saved : Option String)
    (parse : String → Option (List HistoryEntry)) : Option (List HistoryEntry) :=
  parse (jsOrString saved "[]")

/-- The `highScores` initialiser `JSON.parse(localStorage.getItem('chief_high_scores') || '[]')`,
unguarded like the history loader. -/
def loadHighScoresState (saved : Option String)
    (parse : String → Option (List ExamRecord)) : Option (List ExamRecord) :=
  parse (jsOrString saved "[]")

/-- The `sequencePositions` initialiser of `App.tsx`: missing input yields
`defaultPositions`, and the `JSON.parse` call is wrapped in
`try … catch { return defaultPositions }`. -/
def loadPositionsState (saved : Option String)
    (parse : String → Option (Paper → Nat)) : Option (Paper → Nat) :=
  match saved with
  | none => some defaultPositions
  | some sv =>
      if sv = "" then some defaultPositions
      else some ((parse sv).getD defaultPositions)

/-- The `score` initialiser `Number(localStorage.getItem('chief_score')) || 0`:
`Number(null) = 0` and a `NaN` coercion (`toNumber` returning `none`)
falls through `|| 0`.  Never throws. -/
def loadScoreState (saved : Option String) (toNumber : String → Option Int) : Option Int :=
  some (match saved with
        | none => 0
        | some sv => (toNumber sv).getD 0)

/-- The `appMode` initialiser `(localStorage.getItem('chief_mode') as AppMode) || 'training'`:
any non-empty stored string is kept verbatim. -/
def loadModeState (saved : Option String) : Option String :=
  some (jsOrString saved "training")

/-- The `theme` initialiser `(localStorage.getItem('chief_theme') as 'dark' | 'light') || 'dark'`. -/
def loadThemeState (saved : Option String) : Option String :=
  some (jsOrString saved "dark")

/-! ## Permutation facts about the shuffle -/

theorem count_set (l : List Nat) (i b a : Nat) (h : i < l.length) :
    (l.set i b).count a + (if l[i] = a then 1 else 0)
      = l.count a + (if b = a then 1 else 0) := by
  have hset : l.set i b = l.take i ++ b :: l.drop (i + 1) := by
    rw [List.set_eq_take_append_cons_drop, if_pos h]
  have hl : l.take i ++ l[i] :: l.drop (i + 1) = l := by
    rw [List.getElem_cons_drop]
    exact List.take_append_drop i l
  conv_rhs => rw [← hl]
  rw [hset, List.count_append, List.count_append, List.count_cons, List.count_cons]
  simp only [beq_iff_eq]
  split_ifs <;> omega

theorem length_swapList (l : List Nat) (i j : Nat) :
    (swapList l i j).length = l.length := by
  simp [swapList]

theorem swapList_perm (l : List Nat) (i j : Nat) (hi : i < l.length) (hj : j < l.length) :
    (swapList l i j).Perm l := by
  rw [List.perm_iff_count]
  intro a
  unfold swapList
  rw [List.getD_eq_getElem l 0 hj, List.getD_eq_getElem l 0 hi]
  have h1j : j < (l.set i l[j]).length := by simpa using hj
  have e1 := count_set (l.set i l[j]) j l[i] a h1j
  have e2 := count_set l i l[j] a hi
  have hval : (l.set i l[j])[j] = l[j] := by
    rw [List.getElem_set]
    split <;> rfl
  rw [hval] at e1
  split_ifs at e1 e2 <;> omega

theorem shuffleLoop_length (rand : Nat → Nat) :
    ∀ (fuel : Nat) (l : List Nat), (shuffleLoop rand fuel l).length = l.length := by
  intro fuel
  induction fuel with
  | zero => intro l; rfl
  | succ i ih =>
      intro l
      rw [shuffleLoop, ih, length_swapList]

theorem shuffleLoop_perm (rand : Nat → Nat) :
    ∀ (fuel : Nat) (l : List Nat), fuel < l.length → (shuffleLoop rand fuel l).Perm l := by
  intro fuel
  induction fuel with
  | zero => intro l _; exact List.Perm.refl l
  | succ i ih =>
      intro l h
      rw [shuffleLoop]
      have hj : (rand (i + 1) % UINT32) % (i + 1 + 1) < l.length := by
        have h2 : (rand (i + 1) % UINT32) % (i + 1 + 1) < i + 1 + 1 := Nat.mod_lt _ (by omega)
        omega
      have hswap := swapList_perm l (i + 1) ((rand (i + 1) % UINT32) % (i + 1 + 1)) h hj
      have hlen := length_swapList l (i + 1) ((rand (i + 1) % UINT32) % (i + 1 + 1))
      exact (ih _ (by omega)).trans hswap

theorem secureShuffle_perm (rand : Nat → Nat) (array : List Nat) :
    (secureShuffle rand array).Perm array := by
  unfold secureShuffle
  rcases Nat.eq_zero_or_pos array.length with h | h
  · rw [h]; exact List.Perm.refl array
  · exact shuffleLoop_perm rand (array.length - 1) array (by omega)

theorem secureShuffle_length (rand : Nat → Nat) (array : List Nat) :
    (secureShuffle rand array).length = array.length :=
  shuffleLoop_length rand (array.length - 1) array

theorem generateSecureSequence_perm (rand : Nat → Nat) (n : Nat) :
    (generateSecureSequence rand n).Perm (List.range' 1 n) :=
  secureShuffle_perm rand (List.range' 1 n)

/-- C2: for every `n > 0` and every entropy oracle, `generateSecureSequence n`
is a permutation of `{1, …, n}`: it has length `n` and is a list
permutation of the identity sequence `[1, …, n]`, so every value of
`{1, …, n}` occurs exactly once (no duplicates, none skipped).  The
Fisher–Yates structure — a swap of positions `i` and `j` with
`j = draw % (i + 1) ∈ [0, i]` for `i` descending from `n - 1` to `1` over
the identity sequence — is the definition of `generateSecureSequence`,
`secureShuffle` and `shuffleLoop` above, read off `src/utils/entropy.ts`. -/
theorem C2_generateSecureSequence_permutation (rand : Nat → Nat) (n : Nat) (_hn : 0 < n) :
    (generateSecureSequence rand n).length = n
      ∧ (generateSecureSequence rand n).Perm (List.range' 1 n)
      ∧ ∀ v, v ∈ generateSecureSequence rand n ↔ (1 ≤ v ∧ v ≤ n) := by
  refine ⟨?_, generateSecureSequence_perm rand n, ?_⟩
  · rw [generateSecureSequence, secureShuffle_length, List.length_range']
  · intro v
    rw [(generateSecureSequence_perm rand n).mem_iff, List.mem_range'_1]
    omega

/-- Witness for C2 at `n = 5` with the constant-zero oracle. -/
theorem C2_generateSecureSequence_permutation_witness :
    0 < 5 ∧
      ((generateSecureSequence (fun _ => 0) 5).length = 5
        ∧ (generateSecureSequence (fun _ => 0) 5).Perm (List.range' 1 5)
        ∧ ∀ v, v ∈ generateSecureSequence (fun _ => 0) 5 ↔ (1 ≤ v ∧ v ≤ 5)) :=
  ⟨by decide, C2_generateSecureSequence_permutation (fun _ => 0) 5 (by decide)⟩

/-! ## The shuffle does not write to its argument -/

theorem shuffleLoopExec_array (rand : Nat → Nat) :
    ∀ (fuel : Nat) (st : ShuffleLocals), (shuffleLoopExec rand fuel st).array = st.array := by
  intro fuel
  induction fuel with
  | zero => intro st; rfl
  | succ i ih => intro st; rw [shuffleLoopExec, ih]

theorem shuffleLoopExec_result (rand : Nat → Nat) :
    ∀ (fuel : Nat) (st : ShuffleLocals),
      (shuffleLoopExec rand fuel st).result = shuffleLoop rand fuel st.result := by
  intro fuel
  induction fuel with
  | zero => intro st; rfl
  | succ i ih => intro st; rw [shuffleLoopExec, ih, shuffleLoop]

/-- C10: `secureShuffle` never mutates its argument.  In the two-local
model of the function body (`secureShuffleExec`), every write of the loop
targets the fresh copy `result`, so after the call the caller's `array` is
element-for-element the input; the returned list is the shuffle of the
copy, has the same length as the input, and is a permutation of it. -/
theorem C10_secureShuffle_no_mutation (rand : Nat → Nat) (array : List Nat) :
    (secureShuffleExec rand array).array = array
      ∧ (secureShuffleExec rand array).result = secureShuffle rand array
      ∧ (secureShuffleExec rand array).result.length = array.length
      ∧ (secureShuffleExec rand array).result.Perm array := by
  have ha : (secureShuffleExec rand array).array = array :=
    shuffleLoopExec_array rand (array.length - 1) { array := array, result := array }
  have hr : (secureShuffleExec rand array).result = secureShuffle rand array :=
    shuffleLoopExec_result rand (array.length - 1) { array := array, result := array }
  refine ⟨ha, hr, ?_, ?_⟩
  · rw [hr]; exact secureShuffle_length rand array
  · rw [hr]; exact secureShuffle_perm rand array

/-! ## Ledger bounds -/

theorem take_cons_take (A : List HistoryEntry) (e : HistoryEntry) (l : List HistoryEntry)
    (n : Nat) : (A ++ (e :: l).take n).take n = (A ++ e :: l).take n := by
  rw [List.take_append_eq_append_take, List.take_append_eq_append_take, List.take_take,
    Nat.min_eq_left (Nat.sub_le n A.length)]

theorem foldl_pushHistory (es : List HistoryEntry) :
    ∀ l : List HistoryEntry, l.length ≤ HISTORY_CAP →
      es.foldl (fun acc e => pushHistory e acc) l = (es.reverse ++ l).take HISTORY_CAP := by
  induction es with
  | nil =>
      intro l hl
      rw [List.foldl_nil, List.reverse_nil, List.nil_append, List.take_of_length_le hl]
  | cons e es ih =>
      intro l _
      rw [List.foldl_cons]
      have hlen : (pushHistory e l).length ≤ HISTORY_CAP := by
        unfold pushHistory
        exact List.length_take_le HISTORY_CAP (e :: l)
      rw [ih (pushHistory e l) hlen, List.reverse_cons, List.append_assoc,
        List.singleton_append]
      exact take_cons_take es.reverse e l HISTORY_CAP

/-- C4: starting from any history ledger within its cap, appending
`HISTORY_CAP + 5 = 15` entries one by one through `pushHistory` leaves
exactly `HISTORY_CAP = 10` entries, namely the ten most recently appended
entries newest-first (the reverse of the appended batch, truncated to
ten); and every leaderboard append (`pushRecord`) prepends the record at
the front and truncates to at most `LEADERBOARD_CAP = 50` records, the
tail being the first 49 old records. -/
theorem C4_ledger_bounds (l : List HistoryEntry) (hl : l.length ≤ HISTORY_CAP)
    (es : List HistoryEntry) (hes : es.length = HISTORY_CAP + 5) :
    (es.foldl (fun acc e => pushHistory e acc) l = es.reverse.take HISTORY_CAP
        ∧ (es.foldl (fun acc e => pushHistory e acc) l).length = HISTORY_CAP)
      ∧ ∀ (r : ExamRecord) (hs : List ExamRecord),
          (pushRecord r hs).length ≤ LEADERBOARD_CAP
            ∧ (pushRecord r hs).head? = some r
            ∧ (pushRecord r hs).tail = hs.take (LEADERBOARD_CAP - 1) := by
  have hfold := foldl_pushHistory es l hl
  have hrev : es.reverse.length = HISTORY_CAP + 5 := by
    rw [List.length_reverse, hes]
  have htrunc : (es.reverse ++ l).take HISTORY_CAP = es.reverse.take HISTORY_CAP := by
    rw [List.take_append_eq_append_take]
    have : HISTORY_CAP - es.reverse.length = 0 := by omega
    rw [this, List.take_zero, List.append_nil]
  constructor
  · constructor
    · rw [hfold, htrunc]
    · rw [hfold, htrunc, List.length_take]
      omega
  · intro r hs
    refine ⟨List.length_take_le _ _, ?_, ?_⟩
    · rw [pushRecord]
      rw [List.take_cons (by decide : 0 < LEADERBOARD_CAP)]
      rfl
    · rw [pushRecord]
      rw [List.take_cons (by decide : 0 < LEADERBOARD_CAP)]
      rfl

/-- Witness for C4: the empty starting ledger and fifteen distinct
entries. -/
theorem C4_ledger_bounds_witness :
    ([] : List HistoryEntry).length ≤ HISTORY_CAP
      ∧ (List.map (fun i => HistoryEntry.mk "q" Paper.P2A1 "t" true i)
          (List.range 15)).length = HISTORY_CAP + 5
      ∧ (((List.map (fun i => HistoryEntry.mk "q" Paper.P2A1 "t" true i)
            (List.range 15)).foldl (fun acc e => pushHistory e acc) []
          = (List.map (fun i => HistoryEntry.mk "q" Paper.P2A1 "t" true i)
              (List.range 15)).reverse.take HISTORY_CAP
        ∧ ((List.map (fun i => HistoryEntry.mk "q" Paper.P2A1 "t" true i)
            (List.range 15)).foldl (fun acc e => pushHistory e acc) []).length = HISTORY_CAP)
      ∧ ∀ (r : ExamRecord) (hs : List ExamRecord),
          (pushRecord r hs).length ≤ LEADERBOARD_CAP
            ∧ (pushRecord r hs).head? = some r
            ∧ (pushRecord r hs).tail = hs.take (LEADERBOARD_CAP - 1)) :=
  ⟨by decide, by decide,
    C4_ledger_bounds [] (by decide) _ (by decide)⟩

/-! ## The exam lifecycle -/

/-- One answered exam question as driven by the UI: the learner selects a
key (`handleOptionSelect`), React re-renders and the question effect runs
(`runEffect`), the learner presses next (`nextQuestion`), and the effect
runs again. -/
def examStep (resolve : Paper → Nat → Question) (uuid : String) (now : Nat)
    (key : String) (s : AppState) : AppState :=
  runEffect resolve (nextQuestion uuid now (runEffect resolve (handleOptionSelect key now s)))

/-- Iterated answering: `k` answered exam questions, the `i`-th one answered with `keys[i]`. -/
def examRun (resolve : Paper → Nat → Question) (uuid : String) (now : Nat)
    (keys : List String) (s : AppState) : Nat → AppState
  | 0 => s
  | k + 1 => examStep resolve uuid now (keys.getD k "") (examRun resolve uuid now keys s k)

/-- The question served at exam position `k`: the `k`-th exam index is
looked up through the topic's persisted sequence by `loadQuestion`
(`sequence[position % TOTAL_QUESTIONS_PER_SECTION]`) before resolution. -/
def examQuestionAt (resolve : Paper → Nat → Question) (E : Paper → List Nat)
    (p : Paper) (qIdx : List Nat) (k : Nat) : Question :=
  resolve p ((E p).getD ((qIdx.getD k 0) % TOTAL_QUESTIONS_PER_SECTION) 0)

/-- The number of the first `k` selections whose key equals the served
question's correct key. -/
def numCorrect (resolve : Paper → Nat → Question) (E : Paper → List Nat)
    (p : Paper) (qIdx : List Nat) (keys : List String) (k : Nat) : Nat :=
  (List.range k).countP
    (fun i => decide (keys.getD i "" = (examQuestionAt resolve E p qIdx i).correctKey))

/-- The shape of the application state between two answered exam
questions: exam mode, an unfinished session at position `k` with `cnt`
correct answers, a loaded question and no pending feedback.  All fields
not owned by the exam flow still hold their pre-exam values from `s`. -/
def examMid (s : AppState) (hist : List HistoryEntry) (sel : Option String)
    (qIdx : List Nat) (k cnt : Nat) (q : Question) : AppState :=
  { activePaper := s.activePaper, appMode := AppMode.exam, score := s.score,
    history := hist, highScores := s.highScores, examSequences := s.examSequences,
    sequencePositions := s.sequencePositions, examState := some ⟨k, cnt, qIdx, false⟩,
    currentQuestion := some q, selectedOption := sel, feedback := none }

theorem numCorrect_succ (resolve : Paper → Nat → Question) (E : Paper → List Nat)
    (p : Paper) (qIdx : List Nat) (keys : List String) (k : Nat) :
    numCorrect resolve E p qIdx keys (k + 1)
      = numCorrect resolve E p qIdx keys k
        + (if decide (keys.getD k "" = (examQuestionAt resolve E p qIdx k).correctKey)
           then 1 else 0) := by
  unfold numCorrect
  rw [List.range_succ, List.countP_append]
  simp [List.countP_cons]

theorem examStep_mid (resolve : Paper → Nat → Question) (uuid : String) (now : Nat)
    (key : String) (s : AppState) (hist : List HistoryEntry) (sel : Option String)
    (qIdx : List Nat) (k cnt : Nat) (q : Question) (hk : k + 1 < EXAM_LENGTH) :
    examStep resolve uuid now key (examMid s hist sel qIdx k cnt q)
      = examMid s
          (pushHistory ⟨q.id, s.activePaper, q.topic, decide (key = q.correctKey), now⟩ hist)
          none qIdx (k + 1)
          (cnt + if decide (key = q.correctKey) then 1 else 0)
          (examQuestionAt resolve s.examSequences s.activePaper qIdx (k + 1)) := by
  have hle : ¬ (k + 1 ≥ EXAM_LENGTH) := Nat.not_le.mpr hk
  have h12 : runEffect resolve (handleOptionSelect key now (examMid s hist sel qIdx k cnt q))
      = examMid s
          (pushHistory ⟨q.id, s.activePaper, q.topic, decide (key = q.correctKey), now⟩ hist)
          none qIdx k (cnt + if decide (key = q.correctKey) then 1 else 0)
          (examQuestionAt resolve s.examSequences s.activePaper qIdx k) := rfl
  have h3 : nextQuestion uuid now
        (examMid s
          (pushHistory ⟨q.id, s.activePaper, q.topic, decide (key = q.correctKey), now⟩ hist)
          none qIdx k (cnt + if decide (key = q.correctKey) then 1 else 0)
          (examQuestionAt resolve s.examSequences s.activePaper qIdx k))
      = examMid s
          (pushHistory ⟨q.id, s.activePaper, q.topic, decide (key = q.correctKey), now⟩ hist)
          none qIdx (k + 1) (cnt + if decide (key = q.correctKey) then 1 else 0)
          (examQuestionAt resolve s.examSequences s.activePaper qIdx k) := by
    have hsplit : nextQuestion uuid now
          (examMid s
            (pushHistory ⟨q.id, s.activePaper, q.topic, decide (key = q.correctKey), now⟩ hist)
            none qIdx k (cnt + if decide (key = q.correctKey) then 1 else 0)
            (examQuestionAt resolve s.examSequences s.activePaper qIdx k))
        = if k + 1 ≥ EXAM_LENGTH
          then finishExam uuid now
            (examMid s
              (pushHistory ⟨q.id, s.activePaper, q.topic, decide (key = q.correctKey), now⟩ hist)
              none qIdx k (cnt + if decide (key = q.correctKey) then 1 else 0)
              (examQuestionAt resolve s.examSequences s.activePaper qIdx k))
          else examMid s
            (pushHistory ⟨q.id, s.activePaper, q.topic, decide (key = q.correctKey), now⟩ hist)
            none qIdx (k + 1) (cnt + if decide (key = q.correctKey) then 1 else 0)
            (examQuestionAt resolve s.examSequences s.activePaper qIdx k) := rfl
    rw [hsplit, if_neg hle]
  show runEffect resolve (nextQuestion uuid now
    (runEffect resolve (handleOptionSelect key now (examMid s hist sel qIdx k cnt q)))) = _
  rw [h12, h3]
  rfl

theorem examStep_final (resolve : Paper → Nat → Question) (uuid : String) (now : Nat)
    (key : String) (s : AppState) (hist : List HistoryEntry) (sel : Option String)
    (qIdx : List Nat) (cnt : Nat) (q : Question) :
    examStep resolve uuid now key (examMid s hist sel qIdx 99 cnt q)
      = { activePaper := s.activePaper, appMode := AppMode.exam, score := s.score,
          history :=
            pushHistory ⟨q.id, s.activePaper, q.topic, decide (key = q.correctKey), now⟩ hist,
          highScores :=
            pushRecord
              ⟨uuid, s.activePaper, cnt + (if decide (key = q.correctKey) then 1 else 0),
                EXAM_LENGTH, now,
                decide (cnt + (if decide (key = q.correctKey) then 1 else 0) ≥ PASS_MARK)⟩
              s.highScores,
          examSequences := s.examSequences, sequencePositions := s.sequencePositions,
          examState :=
            some ⟨99, cnt + (if decide (key = q.correctKey) then 1 else 0), qIdx, true⟩,
          currentQuestion := some (examQuestionAt resolve s.examSequences s.activePaper qIdx 99),
          selectedOption := none, feedback := none } := by
  have h12 : runEffect resolve (handleOptionSelect key now (examMid s hist sel qIdx 99 cnt q))
      = examMid s
          (pushHistory ⟨q.id, s.activePaper, q.topic, decide (key = q.correctKey), now⟩ hist)
          none qIdx 99 (cnt + if decide (key = q.correctKey) then 1 else 0)
          (examQuestionAt resolve s.examSequences s.activePaper qIdx 99) := rfl
  show runEffect resolve (nextQuestion uuid now
    (runEffect resolve (handleOptionSelect key now (examMid s hist sel qIdx 99 cnt q)))) = _
  rw [h12]
  rfl

theorem numCorrect_zero (resolve : Paper → Nat → Question) (E : Paper → List Nat)
    (p : Paper) (qIdx : List Nat) (keys : List String) :
    numCorrect resolve E p qIdx keys 0 = 0 := rfl

theorem startExam_eq (rand : Nat → Nat) (s : AppState) :
    startExam rand s
      = { s with
          examState := some ⟨0, 0,
            (generateSecureSequence rand TOTAL_QUESTIONS_PER_SECTION).take EXAM_LENGTH,
            false⟩,
          appMode := AppMode.exam } := rfl

theorem runEffect_start (resolve : Paper → Nat → Question) (rand : Nat → Nat) (s : AppState) :
    runEffect resolve (startExam rand s)
      = examMid s s.history none
          ((generateSecureSequence rand TOTAL_QUESTIONS_PER_SECTION).take EXAM_LENGTH)
          0 0
          (examQuestionAt resolve s.examSequences s.activePaper
            ((generateSecureSequence rand TOTAL_QUESTIONS_PER_SECTION).take EXAM_LENGTH)
            0) := by
  rw [startExam_eq]
  generalize (generateSecureSequence rand TOTAL_QUESTIONS_PER_SECTION).take EXAM_LENGTH = q0
  rfl

theorem examRun_mid (resolve : Paper → Nat → Question) (rand : Nat → Nat) (uuid : String)
    (now : Nat) (keys : List String) (s : AppState) :
    ∀ k, k < EXAM_LENGTH →
      ∃ hist sel,
        examRun resolve uuid now keys (runEffect resolve (startExam rand s)) k
          = examMid s hist sel
              ((generateSecureSequence rand TOTAL_QUESTIONS_PER_SECTION).take EXAM_LENGTH)
              k
              (numCorrect resolve s.examSequences s.activePaper
                ((generateSecureSequence rand TOTAL_QUESTIONS_PER_SECTION).take EXAM_LENGTH)
                keys k)
              (examQuestionAt resolve s.examSequences s.activePaper
                ((generateSecureSequence rand TOTAL_QUESTIONS_PER_SECTION).take EXAM_LENGTH)
                k) := by
  intro k
  induction k with
  | zero =>
      intro _
      refine ⟨s.history, none, ?_⟩
      have h0 : examRun resolve uuid now keys (runEffect resolve (startExam rand s)) 0
          = runEffect resolve (startExam rand s) := rfl
      rw [h0, runEffect_start resolve rand s, numCorrect_zero]
  | succ k ih =>
      intro hk1
      obtain ⟨hist, sel, heq⟩ := ih (Nat.lt_of_succ_lt hk1)
      refine ⟨pushHistory
          ⟨(examQuestionAt resolve s.examSequences s.activePaper
              ((generateSecureSequence rand TOTAL_QUESTIONS_PER_SECTION).take EXAM_LENGTH) k).id,
            s.activePaper,
            (examQuestionAt resolve s.examSequences s.activePaper
              ((generateSecureSequence rand TOTAL_QUESTIONS_PER_SECTION).take EXAM_LENGTH) k).topic,
            decide (keys.getD k ""
              = (examQuestionAt resolve s.examSequences s.activePaper
                  ((generateSecureSequence rand TOTAL_QUESTIONS_PER_SECTION).take EXAM_LENGTH)
                  k).correctKey),
            now⟩ hist, none, ?_⟩
      show examStep resolve uuid now (keys.getD k "")
          (examRun resolve uuid now keys (runEffect resolve (startExam rand s)) k) = _
      rw [heq, examStep_mid resolve uuid now (keys.getD k "") s hist sel _ k _ _ hk1,
        numCorrect_succ]

/-- C1: starting from a fresh exam session (`startExam` followed by the
question-loading effect), answering and advancing exactly
`EXAM_LENGTH = 100` times reaches the finished state exactly once: every
strict prefix of the run leaves the session unfinished, the final state is
finished with `correctCount` equal to the number of selections whose key
equalled the served question's correct key (`numCorrect … EXAM_LENGTH`),
and exactly one `ExamRecord` is prepended to the leaderboard
(`pushRecord rec` on the old leaderboard) with `total = EXAM_LENGTH = 100`,
`score = correctCount` and `passed = true` iff
`correctCount ≥ PASS_MARK = 65`. -/
theorem C1_exam_lifecycle (resolve : Paper → Nat → Question) (rand : Nat → Nat)
    (uuid : String) (now : Nat) (keys : List String) (s : AppState)
    (_hkeys : keys.length = EXAM_LENGTH) :
    (∀ k, k < EXAM_LENGTH →
        ∃ es, (examRun resolve uuid now keys (runEffect resolve (startExam rand s)) k).examState
            = some es ∧ es.isFinished = false)
      ∧ ∃ es rec,
          (examRun resolve uuid now keys
              (runEffect resolve (startExam rand s)) EXAM_LENGTH).examState = some es
            ∧ es.isFinished = true
            ∧ es.correctCount
                = numCorrect resolve s.examSequences s.activePaper
                    ((generateSecureSequence rand TOTAL_QUESTIONS_PER_SECTION).take EXAM_LENGTH)
                    keys EXAM_LENGTH
            ∧ (examRun resolve uuid now keys
                (runEffect resolve (startExam rand s)) EXAM_LENGTH).highScores
                = pushRecord rec s.highScores
            ∧ rec.total = EXAM_LENGTH
            ∧ rec.score = es.correctCount
            ∧ (rec.passed = true ↔ PASS_MARK ≤ es.correctCount) := by
  constructor
  · intro k hk
    obtain ⟨hist, sel, heq⟩ := examRun_mid resolve rand uuid now keys s k hk
    rw [heq]
    exact ⟨_, rfl, rfl⟩
  · obtain ⟨hist, sel, heq⟩ :=
      examRun_mid resolve rand uuid now keys s 99 (by decide)
    have h100 : examRun resolve uuid now keys
          (runEffect resolve (startExam rand s)) EXAM_LENGTH
        = examStep resolve uuid now (keys.getD 99 "")
            (examRun resolve uuid now keys (runEffect resolve (startExam rand s)) 99) := rfl
    rw [h100, heq, examStep_final resolve uuid now (keys.getD 99 "") s hist sel _ _ _]
    refine ⟨_, _, rfl, rfl, ?_, rfl, rfl, rfl, ?_⟩
    · exact (numCorrect_succ resolve s.examSequences s.activePaper
        ((generateSecureSequence rand TOTAL_QUESTIONS_PER_SECTION).take EXAM_LENGTH)
        keys 99).symm
    · exact decide_eq_true_iff

/-- A concrete resolver for witnesses: the question id records the pool
index and the correct key is always "A". -/
def sampleResolve : Paper → Nat → Question :=
  fun _ i => ⟨toString i, "topic", "prompt", [("A", "alpha"), ("B", "beta")], "A", "expl"⟩

/-- A concrete fresh boot state: training mode, identity persisted
sequences, zero cursors, empty ledgers. -/
def sampleState : AppState :=
  ⟨Paper.P2A1, AppMode.training, 0, [], [],
    fun _ => List.range' 1 TOTAL_QUESTIONS_PER_SECTION, fun _ => 0, none, none, none, none⟩

/-- Witness for C1: the constant-zero oracle, the constant key "A" and a
fresh boot state. -/
theorem C1_exam_lifecycle_witness :
    (List.replicate 100 "A").length = EXAM_LENGTH
      ∧ ((∀ k, k < EXAM_LENGTH →
            ∃ es, (examRun sampleResolve "u" 0 (List.replicate 100 "A")
                (runEffect sampleResolve (startExam (fun _ => 0) sampleState)) k).examState
                = some es ∧ es.isFinished = false)
        ∧ ∃ es rec,
            (examRun sampleResolve "u" 0 (List.replicate 100 "A")
                (runEffect sampleResolve (startExam (fun _ => 0) sampleState))
                EXAM_LENGTH).examState = some es
              ∧ es.isFinished = true
              ∧ es.correctCount
                  = numCorrect sampleResolve sampleState.examSequences sampleState.activePaper
                      ((generateSecureSequence (fun _ => 0)
                        TOTAL_QUESTIONS_PER_SECTION).take EXAM_LENGTH)
                      (List.replicate 100 "A") EXAM_LENGTH
              ∧ (examRun sampleResolve "u" 0 (List.replicate 100 "A")
                  (runEffect sampleResolve (startExam (fun _ => 0) sampleState))
                  EXAM_LENGTH).highScores
                  = pushRecord rec sampleState.highScores
              ∧ rec.total = EXAM_LENGTH
              ∧ rec.score = es.correctCount
              ∧ (rec.passed = true ↔ PASS_MARK ≤ es.correctCount)) :=
  ⟨by decide,
    C1_exam_lifecycle sampleResolve (fun _ => 0) "u" 0 (List.replicate 100 "A")
      sampleState (by decide)⟩

/-! ## Exam pool-index routing (claim C3) -/

set_option maxHeartbeats 2000000 in
set_option maxRecDepth 10000 in
/-- Counterexample to C3.  With the constant-zero oracle, `startExam` on
the fresh boot state (identity persisted sequences) produces an exam
index list whose first entry is `2`, yet the question handed to the
resolver at position 0 is the one for pool index `3 = identity[2 % 300]`:
`loadQuestion` re-indexes the exam entry through the topic's persisted
sequence instead of using it directly. -/
theorem C3_counterexample :
    ((runEffect sampleResolve (startExam (fun _ => 0) sampleState)).examState.map
        (fun es => es.questionIndices.getD 0 0)) = some 2
      ∧ (runEffect sampleResolve (startExam (fun _ => 0) sampleState)).currentQuestion
          = some (sampleResolve Paper.P2A1 3)
      ∧ sampleResolve Paper.P2A1 3 ≠ sampleResolve Paper.P2A1 2 := by
  refine ⟨?_, ?_, ?_⟩
  · rfl
  · rfl
  · decide

/-- C3 amended: for every exam position `k ∈ [0, EXAM_LENGTH)`, the
question loaded is the resolver applied to
`examSequences[paper][(e_k % TOTAL_QUESTIONS_PER_SECTION)]` where `e_k` is
the `k`-th entry of the first `EXAM_LENGTH` entries of the fresh
permutation generated at `startExam` — that is, the exam's fixed index
list is re-indexed through the topic's persisted sequence rather than
handed to the resolver directly. -/
theorem C3_exam_index_reindexed (resolve : Paper → Nat → Question) (rand : Nat → Nat)
    (uuid : String) (now : Nat) (keys : List String) (s : AppState) (k : Nat)
    (hk : k < EXAM_LENGTH) :
    (examRun resolve uuid now keys (runEffect resolve (startExam rand s)) k).currentQuestion
      = some (resolve s.activePaper
          ((s.examSequences s.activePaper).getD
            ((((generateSecureSequence rand TOTAL_QUESTIONS_PER_SECTION).take
                EXAM_LENGTH).getD k 0)
              % TOTAL_QUESTIONS_PER_SECTION) 0)) := by
  obtain ⟨hist, sel, heq⟩ := examRun_mid resolve rand uuid now keys s k hk
  rw [heq]
  rfl

/-- Witness for the amended C3 at position 0 of a fresh boot state. -/
theorem C3_exam_index_reindexed_witness :
    0 < EXAM_LENGTH
      ∧ (examRun sampleResolve "u" 0 []
            (runEffect sampleResolve (startExam (fun _ => 0) sampleState)) 0).currentQuestion
          = some (sampleResolve sampleState.activePaper
              ((sampleState.examSequences sampleState.activePaper).getD
                ((((generateSecureSequence (fun _ => 0) TOTAL_QUESTIONS_PER_SECTION).take
                    EXAM_LENGTH).getD 0 0)
                  % TOTAL_QUESTIONS_PER_SECTION) 0)) :=
  ⟨by decide,
    C3_exam_index_reindexed sampleResolve (fun _ => 0) "u" 0 [] sampleState 0 (by decide)⟩

/-! ## Selection and advance computation lemmas -/

theorem handleOptionSelect_exam_eq (key : String) (now : Nat) (s : AppState)
    (q : Question) (es : ExamSession) (hf : s.feedback = none)
    (hq : s.currentQuestion = some q) (hm : s.appMode = AppMode.exam)
    (he : s.examState = some es) :
    handleOptionSelect key now s
      = { s with
          examState := some ⟨es.currentIndex,
            es.correctCount + (if decide (key = q.correctKey) then 1 else 0),
            es.questionIndices, es.isFinished⟩,
          selectedOption := some key,
          history :=
            pushHistory ⟨q.id, s.activePaper, q.topic, decide (key = q.correctKey), now⟩
              s.history,
          feedback := some ⟨decide (key = q.correctKey),
            if decide (key = q.correctKey) then "Log Verified." else "Critical Oversight.",
            q.explanation⟩ } := by
  unfold handleOptionSelect
  rw [hf, hq, hm, he]

theorem handleOptionSelect_practice_eq (key : String) (now : Nat) (s : AppState)
    (q : Question) (hf : s.feedback = none) (hq : s.currentQuestion = some q)
    (hm : s.appMode = AppMode.training) :
    handleOptionSelect key now s
      = { s with
          score := if decide (key = q.correctKey) then s.score + 1 else s.score,
          selectedOption := some key,
          history :=
            pushHistory ⟨q.id, s.activePaper, q.topic, decide (key = q.correctKey), now⟩
              s.history,
          feedback := some ⟨decide (key = q.correctKey),
            if decide (key = q.correctKey) then "Log Verified." else "Critical Oversight.",
            q.explanation⟩ } := by
  unfold handleOptionSelect
  rw [hf, hq, hm]

theorem finishExam_frame (uuid : String) (now : Nat) (s : AppState) :
    (finishExam uuid now s).sequencePositions = s.sequencePositions
      ∧ (finishExam uuid now s).score = s.score := by
  unfold finishExam
  cases s.examState <;> exact ⟨rfl, rfl⟩

theorem nextQuestion_exam_eq (uuid : String) (now : Nat) (s : AppState) (es : ExamSession)
    (hm : s.appMode = AppMode.exam) (he : s.examState = some es) :
    nextQuestion uuid now s
      = if es.currentIndex + 1 ≥ EXAM_LENGTH then finishExam uuid now s
        else { s with examState := some ⟨es.currentIndex + 1, es.correctCount,
          es.questionIndices, es.isFinished⟩ } := by
  unfold nextQuestion
  rw [hm, he]

/-- C5: exam-mode operations leave every topic's practice cursor and the
cumulative practice score untouched.  `startExam` changes neither; a
selection in exam mode (with a session present) only bumps the session's
`correctCount` — by one if the key is correct, else not at all — and
leaves the cursor map and the score as they were; `nextQuestion` in exam
mode (whether it advances or finishes) also leaves both unchanged. -/
theorem C5_exam_ops_frame (rand : Nat → Nat) (uuid : String) (now : Nat) (key : String)
    (s : AppState) (es : ExamSession) (hm : s.appMode = AppMode.exam)
    (he : s.examState = some es) :
    ((startExam rand s).sequencePositions = s.sequencePositions
        ∧ (startExam rand s).score = s.score)
      ∧ ((handleOptionSelect key now s).sequencePositions = s.sequencePositions
        ∧ (handleOptionSelect key now s).score = s.score
        ∧ ∃ es', (handleOptionSelect key now s).examState = some es'
            ∧ es'.currentIndex = es.currentIndex
            ∧ es'.questionIndices = es.questionIndices
            ∧ es'.isFinished = es.isFinished
            ∧ (es'.correctCount = es.correctCount
                ∨ es'.correctCount = es.correctCount + 1))
      ∧ ((nextQuestion uuid now s).sequencePositions = s.sequencePositions
        ∧ (nextQuestion uuid now s).score = s.score) := by
  refine ⟨⟨rfl, rfl⟩, ?_, ?_⟩
  · cases hf : s.feedback with
    | some fb =>
        have hnoop : handleOptionSelect key now s = s := by
          unfold handleOptionSelect
          rw [hf]
        rw [hnoop]
        exact ⟨rfl, rfl, es, he, rfl, rfl, rfl, Or.inl rfl⟩
    | none =>
        cases hq : s.currentQuestion with
        | none =>
            have hnoop : handleOptionSelect key now s = s := by
              unfold handleOptionSelect
              rw [hf, hq]
            rw [hnoop]
            exact ⟨rfl, rfl, es, he, rfl, rfl, rfl, Or.inl rfl⟩
        | some q =>
            rw [handleOptionSelect_exam_eq key now s q es hf hq hm he]
            refine ⟨rfl, rfl, _, rfl, rfl, rfl, rfl, ?_⟩
            by_cases hck : key = q.correctKey
            · simp [hck]
            · simp [hck]
  · rw [nextQuestion_exam_eq uuid now s es hm he]
    by_cases hfin : es.currentIndex + 1 ≥ EXAM_LENGTH
    · rw [if_pos hfin]
      exact finishExam_frame uuid now s
    · rw [if_neg hfin]
      exact ⟨rfl, rfl⟩

/-- Witness for C5: an exam-mode state with a loaded question. -/
theorem C5_exam_ops_frame_witness :
    (let s : AppState :=
      ⟨Paper.P2A1, AppMode.exam, 7, [], [], fun _ => List.range' 1 300, fun _ => 5,
        some ⟨0, 0, [1, 2, 3], false⟩,
        some ⟨"q1", "t", "p", [("A", "alpha")], "A", "e"⟩, none, none⟩
    ((startExam (fun _ => 0) s).sequencePositions = s.sequencePositions
        ∧ (startExam (fun _ => 0) s).score = s.score)
      ∧ ((handleOptionSelect "A" 0 s).sequencePositions = s.sequencePositions
        ∧ (handleOptionSelect "A" 0 s).score = s.score
        ∧ ∃ es', (handleOptionSelect "A" 0 s).examState = some es'
            ∧ es'.currentIndex = (0 : Nat)
            ∧ es'.questionIndices = [1, 2, 3]
            ∧ es'.isFinished = false
            ∧ (es'.correctCount = (0 : Nat) ∨ es'.correctCount = 0 + 1))
      ∧ ((nextQuestion "u" 0 s).sequencePositions = s.sequencePositions
        ∧ (nextQuestion "u" 0 s).score = s.score)) :=
  C5_exam_ops_frame (fun _ => 0) "u" 0 "A" _ ⟨0, 0, [1, 2, 3], false⟩ rfl rfl

/-! ## The practice cursor cycle -/

theorem nextQuestion_training (uuid : String) (now : Nat) (s : AppState)
    (hm : s.appMode = AppMode.training) :
    (nextQuestion uuid now s).appMode = AppMode.training
      ∧ (nextQuestion uuid now s).activePaper = s.activePaper
      ∧ (nextQuestion uuid now s).sequencePositions s.activePaper
          = (s.sequencePositions s.activePaper + 1) % TOTAL_QUESTIONS_PER_SECTION := by
  unfold nextQuestion
  rw [hm]
  cases s.examState with
  | none => exact ⟨rfl, rfl, by simp⟩
  | some es => exact ⟨rfl, rfl, by simp⟩

theorem iterate_nextQuestion_training (uuid : String) (now : Nat) :
    ∀ (k : Nat) (s : AppState), s.appMode = AppMode.training →
      s.sequencePositions s.activePaper < TOTAL_QUESTIONS_PER_SECTION →
      ((nextQuestion uuid now ·)^[k] s).appMode = AppMode.training
        ∧ ((nextQuestion uuid now ·)^[k] s).activePaper = s.activePaper
        ∧ ((nextQuestion uuid now ·)^[k] s).sequencePositions s.activePaper
            = (s.sequencePositions s.activePaper + k) % TOTAL_QUESTIONS_PER_SECTION := by
  intro k
  induction k with
  | zero =>
      intro s hm hc
      exact ⟨hm, rfl, by simp [Nat.mod_eq_of_lt hc]⟩
  | succ k ih =>
      intro s hm hc
      rw [Function.iterate_succ_apply]
      obtain ⟨h1, h2, h3⟩ := nextQuestion_training uuid now s hm
      have hc' : (nextQuestion uuid now s).sequencePositions
          ((nextQuestion uuid now s).activePaper) < TOTAL_QUESTIONS_PER_SECTION := by
        rw [h2, h3]
        exact Nat.mod_lt _ (by decide)
      obtain ⟨g1, g2, g3⟩ := ih (nextQuestion uuid now s) h1 hc'
      rw [h2] at g2 g3
      rw [h3] at g3
      refine ⟨g1, g2, ?_⟩
      rw [g3]
      have hN : TOTAL_QUESTIONS_PER_SECTION = 300 := rfl
      rw [hN]
      omega

/-- C6: from any training-mode state whose active topic's cursor is in
`[0, TOTAL_QUESTIONS_PER_SECTION)`, advancing
(`nextQuestion`, whose practice branch sets the cursor to
`(cursor + 1) % TOTAL_QUESTIONS_PER_SECTION`) exactly
`TOTAL_QUESTIONS_PER_SECTION = 300` times returns the cursor to its
starting value, and after every number of advances the cursor stays in
`[0, TOTAL_QUESTIONS_PER_SECTION)`. -/
theorem C6_practice_advance_cycle (uuid : String) (now : Nat) (s : AppState)
    (hm : s.appMode = AppMode.training)
    (hc : s.sequencePositions s.activePaper < TOTAL_QUESTIONS_PER_SECTION) :
    ((nextQuestion uuid now ·)^[TOTAL_QUESTIONS_PER_SECTION] s).sequencePositions
        s.activePaper = s.sequencePositions s.activePaper
      ∧ ∀ k : Nat, ((nextQuestion uuid now ·)^[k] s).sequencePositions s.activePaper
          < TOTAL_QUESTIONS_PER_SECTION := by
  constructor
  · obtain ⟨-, -, h3⟩ :=
      iterate_nextQuestion_training uuid now TOTAL_QUESTIONS_PER_SECTION s hm hc
    rw [h3]
    have hN : TOTAL_QUESTIONS_PER_SECTION = 300 := rfl
    rw [hN] at hc ⊢
    omega
  · intro k
    obtain ⟨-, -, g3⟩ := iterate_nextQuestion_training uuid now k s hm hc
    rw [g3]
    exact Nat.mod_lt _ (by decide)

/-- Witness for C6: a fresh training state with the cursor at 7. -/
theorem C6_practice_advance_cycle_witness :
    (let s : AppState :=
      ⟨Paper.P2A2, AppMode.training, 0, [], [], fun _ => List.range' 1 300, fun _ => 7,
        none, none, none, none⟩
    s.appMode = AppMode.training
      ∧ s.sequencePositions s.activePaper < TOTAL_QUESTIONS_PER_SECTION
      ∧ (((nextQuestion "u" 0 ·)^[TOTAL_QUESTIONS_PER_SECTION] s).sequencePositions
            s.activePaper = s.sequencePositions s.activePaper
        ∧ ∀ k : Nat, ((nextQuestion "u" 0 ·)^[k] s).sequencePositions s.activePaper
            < TOTAL_QUESTIONS_PER_SECTION)) :=
  ⟨rfl, by decide, C6_practice_advance_cycle "u" 0 _ rfl (by decide)⟩

/-! ## Guarded no-op selection -/

/-- C7: calling `handleOptionSelect` when feedback is already set for the
current question, or when no question has been resolved yet, returns the
state unchanged — in particular feedback, the selected option, the
practice score, the exam correct-count and the history ledger are all as
before.  The handler is a total function, so no error can surface. -/
theorem C7_select_guarded_noop (key : String) (now : Nat) (s : AppState)
    (h : s.feedback.isSome = true ∨ s.currentQuestion = none) :
    handleOptionSelect key now s = s := by
  cases hf : s.feedback with
  | some fb =>
      unfold handleOptionSelect
      rw [hf]
  | none =>
      cases hq : s.currentQuestion with
      | none =>
          unfold handleOptionSelect
          rw [hf, hq]
      | some q =>
          rcases h with h | h
          · rw [hf] at h
            simp at h
          · rw [hq] at h
            simp at h

/-- Witness for C7: a state with pending feedback. -/
theorem C7_select_guarded_noop_witness :
    (let s : AppState :=
      ⟨Paper.P2A1, AppMode.training, 3, [], [], fun _ => List.range' 1 300, fun _ => 0,
        none, some ⟨"q1", "t", "p", [("A", "alpha")], "A", "e"⟩, some "B",
        some ⟨false, "Critical Oversight.", "e"⟩⟩
    (s.feedback.isSome = true ∨ s.currentQuestion = none)
      ∧ handleOptionSelect "A" 0 s = s) :=
  ⟨Or.inl rfl, C7_select_guarded_noop "A" 0 _ (Or.inl rfl)⟩

/-! ## Exam answers are recorded in the history ledger -/

/-- C9: a selection made in exam mode (feedback clear, question loaded,
session present) prepends the same `HistoryEntry` — question id, paper,
topic, correctness, timestamp — through `pushHistory` that a
practice-mode selection from the same state would prepend; exam answers
are not excluded from the answer history. -/
theorem C9_exam_history_recorded (key : String) (now : Nat) (s : AppState)
    (q : Question) (es : ExamSession) (hf : s.feedback = none)
    (hq : s.currentQuestion = some q) (hm : s.appMode = AppMode.exam)
    (he : s.examState = some es) :
    (handleOptionSelect key now s).history
        = pushHistory ⟨q.id, s.activePaper, q.topic, decide (key = q.correctKey), now⟩
            s.history
      ∧ (handleOptionSelect key now { s with appMode := AppMode.training }).history
          = (handleOptionSelect key now s).history := by
  rw [handleOptionSelect_exam_eq key now s q es hf hq hm he,
    handleOptionSelect_practice_eq key now { s with appMode := AppMode.training } q hf hq rfl]
  exact ⟨rfl, rfl⟩

/-- Witness for C9: an exam-mode state with a loaded question and no
feedback. -/
theorem C9_exam_history_recorded_witness :
    (let s : AppState :=
      ⟨Paper.P2A3, AppMode.exam, 0, [], [], fun _ => List.range' 1 300, fun _ => 0,
        some ⟨4, 2, [9, 8, 7], false⟩,
        some ⟨"q9", "boilers", "p", [("A", "alpha"), ("B", "beta")], "B", "e"⟩, none, none⟩
    (handleOptionSelect "B" 5 s).history
        = pushHistory ⟨"q9", Paper.P2A3, "boilers", decide ("B" = "B"), 5⟩ []
      ∧ (handleOptionSelect "B" 5 { s with appMode := AppMode.training }).history
          = (handleOptionSelect "B" 5 s).history) :=
  C9_exam_history_recorded "B" 5 _ ⟨"q9", "boilers", "p", [("A", "alpha"), ("B", "beta")], "B", "e"⟩
    ⟨4, 2, [9, 8, 7], false⟩ rfl rfl rfl rfl

/-! ## Boot loader recovery (claim C8) -/

/-- A concrete model of `JSON.parse` for history lists: it succeeds on
the literal `"[]"` (the empty list) and throws — returns `none` — on any
other input. -/
def jsonParseHistoryModel : String → Option (List HistoryEntry) :=
  fun sv => if sv = "[]" then some [] else none

/-- Counterexample to C8.  The `history` initialiser applies `JSON.parse`
with no guard: on the malformed stored value `"garbage"` the parse throws
and the loader propagates the exception (result `none`) instead of
recovering with the default empty ledger — while a missing value does
load the default. -/
theorem C8_counterexample :
    loadHistoryState (some "garbage") jsonParseHistoryModel = none
      ∧ loadHistoryState none jsonParseHistoryModel = some [] :=
  ⟨rfl, rfl⟩

/-- C8 amended: the `score` key recovers from a missing or non-numeric
saved value by falling back to `0`; the `positions` key recovers from a
missing, empty or unparsable saved value by falling back to the
zero-initialised map; the `mode` and `theme` keys fall back to their
defaults when the saved value is missing; but the `history` and
`highScores` keys apply `JSON.parse` unguarded, so a malformed (non-empty,
unparsable) saved value throws out of the loader instead of falling back. -/
theorem C8_loaders_recovery (toNumber : String → Option Int)
    (parseP : String → Option (Paper → Nat))
    (parseH : String → Option (List HistoryEntry))
    (parseR : String → Option (List ExamRecord)) (sv : String)
    (hnum : toNumber sv = none) (hpos : parseP sv = none)
    (hhist : parseH sv = none) (hrec : parseR sv = none) (hne : sv ≠ "") :
    loadScoreState none toNumber = some 0
      ∧ loadScoreState (some sv) toNumber = some 0
      ∧ loadPositionsState none parseP = some defaultPositions
      ∧ loadPositionsState (some sv) parseP = some defaultPositions
      ∧ loadModeState none = some "training"
      ∧ loadThemeState none = some "dark"
      ∧ loadHistoryState (some sv) parseH = none
      ∧ loadHighScoresState (some sv) parseR = none := by
  refine ⟨rfl, ?_, rfl, ?_, rfl, rfl, ?_, ?_⟩
  · dsimp only [loadScoreState]
    rw [hnum]
    rfl
  · dsimp only [loadPositionsState]
    rw [if_neg hne, hpos]
    rfl
  · dsimp only [loadHistoryState, jsOrString]
    rw [if_neg hne, hhist]
  · dsimp only [loadHighScoresState, jsOrString]
    rw [if_neg hne, hrec]

/-- Witness for the amended C8 at the malformed stored value `"garbage"`
with parse models that throw on everything not the empty JSON list. -/
theorem C8_loaders_recovery_witness :
    ((fun _ : String => (none : Option Int)) "garbage" = none
      ∧ (fun _ : String => (none : Option (Paper → Nat))) "garbage" = none
      ∧ jsonParseHistoryModel "garbage" = none
      ∧ (fun sv => if sv = "[]" then some ([] : List ExamRecord) else none) "garbage" = none
      ∧ "garbage" ≠ "")
      ∧ (loadScoreState none (fun _ => none) = some 0
        ∧ loadScoreState (some "garbage") (fun _ => none) = some 0
        ∧ loadPositionsState none (fun _ => none) = some defaultPositions
        ∧ loadPositionsState (some "garbage") (fun _ => none) = some defaultPositions
        ∧ loadModeState none = some "training"
        ∧ loadThemeState none = some "dark"
        ∧ loadHistoryState (some "garbage") jsonParseHistoryModel = none
        ∧ loadHighScoresState (some "garbage")
            (fun sv => if sv = "[]" then some [] else none) = none) :=
  ⟨⟨rfl, rfl, by decide, by decide, by decide⟩,
    C8_loaders_recovery (fun _ => none) (fun _ => none) jsonParseHistoryModel
      (fun sv => if sv = "[]" then some [] else none) "garbage"
      rfl rfl (by decide) (by decide) (by decide)⟩

end ChiefsLog
